import Mathlib

set_option maxHeartbeats 1000000

/-! Shallow embedding of the content lifecycle controller of
`src/import-component.js` and of the source resolver of
`src/shadow-import.js` from the DataDink/web-components repository.
DOM nodes are identified by natural numbers and the document regions
surrounding one widget instance are modelled explicitly, so that every
structural effect of the controller (insertion, removal, event dispatch)
is an executable function on this state. -/

abbrev DNode := Nat

/-- The DOM surrounding a single widget instance of `import-component.js`:
`hasParent` records whether the custom element currently has a parent node;
`siblingsBefore` / `siblingsAfter` are the sibling nodes on each side of the
widget inside that parent; `compChildren` are the widget's own children;
`shadow` is the child list of the widget's (lazily created) shadow root; and
`roots` is the outward scope chain of roots walked by `getTargetContext` for
a query-selector target (lines 79-85), each entry holding the child list of
the first element of that root matching the current selector, or `none` when
`querySelector` finds no match in that root. -/
@[ext]
structure Dom where
  hasParent : Bool
  siblingsBefore : List DNode
  siblingsAfter : List DNode
  compChildren : List DNode
  shadow : List DNode
  roots : List (Option (List DNode))
deriving Repr, DecidableEq

/-- The fragment handle held in the private `#context` field: `children` is
the current child list of the `DocumentFragment` object, and `nodesRec` is the
array stored under the private `ImportComponent.#NODES` symbol on it
(captured at line 131 as a copy of `childNodes`). -/
structure Frag where
  children : List DNode
  nodesRec : List DNode
deriving Repr, DecidableEq

/-- Controller state of one `ImportComponent` instance: the surrounding DOM
and the `#context` field (`none` models the JavaScript `null`). -/
structure WState where
  dom : Dom
  ctx : Option Frag
deriving Repr, DecidableEq

/-- The configured attribute surface of `import-component.js`: `fromAttr`
models the `from` getter (`getAttribute('from') ?? ''`), `target` the
`target` getter (`'insert'` when the attribute is absent), and the two
boolean flags model `hasAttribute('scripts')` / `hasAttribute('reroute')`. -/
structure Config where
  fromAttr : String
  target : String
  scripts : Bool
  reroute : Bool
deriving Repr, DecidableEq

/-- Lifecycle notifications dispatched by the controller, each carrying the
fragment handle that is the event's subject (`detail` for `remove`/`insert`,
the event target itself for `detach`/`attach`). -/
inductive Ev
  | removeEv (f : Frag)
  | detachEv (f : Frag)
  | insertEv (f : Frag)
  | attachEv (f : Frag)
deriving Repr, DecidableEq

/-- Removing one node from wherever it currently sits in the DOM: the
effect on the surrounding document of `appendChild(node)` moving `node`
away (DOM re-parenting removes the node from its previous parent). -/
def Dom.removeNode (d : Dom) (n : DNode) : Dom :=
  { d with
    siblingsBefore := d.siblingsBefore.filter (fun x => x ≠ n)
    siblingsAfter := d.siblingsAfter.filter (fun x => x ≠ n)
    compChildren := d.compChildren.filter (fun x => x ≠ n)
    shadow := d.shadow.filter (fun x => x ≠ n)
    roots := d.roots.map (fun r => r.map (fun l => l.filter (fun x => x ≠ n))) }

/-- All node identities currently present in the surrounding DOM. -/
def Dom.allNodes (d : Dom) : List DNode :=
  d.siblingsBefore ++ d.siblingsAfter ++ d.compChildren ++ d.shadow ++
    (d.roots.map (fun r => r.getD [])).flatten

/-- The `while (nodes.length) { component.#context.appendChild(nodes.shift()); }`
loop of `ImportComponent.clear` (line 63): the first argument is the
remaining `#NODES` array, the second the fragment's current child list.
Each `appendChild` detaches the node from its current parent (in the DOM or
in the fragment itself) and appends it at the end of the fragment. -/
def clearLoop : List DNode → List DNode → Dom → List DNode × Dom
  | [], ch, d => (ch, d)
  | n :: rest, ch, d =>
      clearLoop rest (ch.filter (fun x => x ≠ n) ++ [n]) (d.removeNode n)

/-- Effect of `ImportComponent.clear`'s node loop on the fragment object and
the DOM: afterwards the fragment's `#NODES` array has been drained to `[]`
by the repeated `shift()` calls. -/
def clearFrag (f : Frag) (d : Dom) : Frag × Dom :=
  let r := clearLoop f.nodesRec f.children d
  (⟨r.1, []⟩, r.2)

/-- `ImportComponent.clear` (lines 60-67): a no-op when `#context` is null;
otherwise it moves every recorded node back into the fragment, dispatches
`remove` on the component (detail: the fragment) then `detach` on the
fragment, and nulls `#context`. The returned trace pairs each dispatched
event with the DOM state at dispatch time. -/
def ImportComponent.clear (s : WState) : WState × List (Ev × Dom) :=
  match s.ctx with
  | none => (s, [])
  | some f =>
      let r := clearFrag f s.dom
      (⟨r.2, none⟩, [(Ev.removeEv r.1, r.2), (Ev.detachEv r.1, r.2)])

/-- Result of `getTargetContext` (lines 74-86), as the kind of node it
returns: the component itself (for `insert` and `before`), the component's
`nextSibling` (possibly null, for `after`), the shadow root (created on
demand, for `shadow`), the first element matched by the selector somewhere
in the outward scope chain, or null when no root matches. -/
inductive TargetCtx
  | componentSelf
  | nextSibling (present : Bool)
  | shadowRootOf
  | foundElem (children : List DNode)
  | nullTarget
deriving Repr, DecidableEq

/-- The outward scope-chain walk of lines 79-85: query each root in turn,
first match wins, null when every root misses. -/
def chainFind : List (Option (List DNode)) → Option (List DNode)
  | [] => none
  | some l :: _ => some l
  | none :: rest => chainFind rest

/-- `ImportComponent.getTargetContext` (lines 74-86). -/
def ImportComponent.getTargetContext (cfg : Config) (d : Dom) : TargetCtx :=
  if cfg.target = "insert" then .componentSelf
  else if cfg.target = "before" then .componentSelf
  else if cfg.target = "after" then .nextSibling (d.siblingsAfter ≠ [])
  else if cfg.target = "shadow" then .shadowRootOf
  else
    match chainFind d.roots with
    | some l => .foundElem l
    | none => .nullTarget

/-- Appending the fragment's children to the first matching element of the
scope chain (the element `getTargetContext` returned for a selector). -/
def chainInsert (frag : List DNode) : List (Option (List DNode)) → List (Option (List DNode))
  | [] => []
  | some l :: rest => some (l ++ frag) :: rest
  | none :: rest => none :: chainInsert frag rest

/-- The placement `switch` of `ImportComponent.import` (lines 133-150),
acting on the surrounding DOM. Returns the updated DOM and whether the
fragment's children were actually moved out of the fragment (an
`appendChild`/`insertBefore` with a null target or a null `parentNode` is
skipped by the optional-chaining operator and moves nothing). -/
def placeFragment (cfg : Config) (frag : List DNode) (d : Dom) : Dom × Bool :=
  if cfg.target = "shadow" then ({ d with shadow := d.shadow ++ frag }, true)
  else if cfg.target = "insert" then ({ d with compChildren := d.compChildren ++ frag }, true)
  else if cfg.target = "before" then
    if d.hasParent then ({ d with siblingsBefore := d.siblingsBefore ++ frag }, true)
    else (d, false)
  else if cfg.target = "after" then
    if d.hasParent then ({ d with siblingsAfter := frag ++ d.siblingsAfter }, true)
    else (d, false)
  else
    match chainFind d.roots with
    | some _ => ({ d with roots := chainInsert frag d.roots }, true)
    | none => (d, false)

/-- An executable directive found in the imported fragment, as
`executeScript` (lines 183-191) sees it after resolving its source: a unit
that is an invocable function acting on the shared script log, a unit whose
invocation throws, or a resolved unit that is not a function at all. -/
inductive ScriptUnit
  | runs (f : List Nat → List Nat)
  | throwsErr (msg : String)
  | notInvocable

/-- `ImportComponent.executeScript` (lines 183-191): a non-invocable
resolved unit fails with the source's invalid-script error; an invocable
unit is awaited and either throws or transforms the shared log. -/
def ImportComponent.executeScript : ScriptUnit → List Nat → Except String (List Nat)
  | .notInvocable, _ => .error "Script content is not a valid function"
  | .throwsErr m, _ => .error m
  | .runs f, log => .ok (f log)

/-- The script loop of `ImportComponent.import` (lines 126-129): directives
run strictly one at a time in document order; a failure is caught per
directive, logged to the console error list, and the loop continues. -/
def runScripts : List ScriptUnit → List Nat → List String → List Nat × List String
  | [], log, errs => (log, errs)
  | u :: rest, log, errs =>
      match ImportComponent.executeScript u log with
      | .ok log2 => runScripts rest log2 errs
      | .error e => runScripts rest log (errs ++ ["Error executing imported script: " ++ e])

/-- Outcome of one `ImportComponent.import` call: the controller state, the
shared script log, the dispatched event trace (each event paired with the
DOM at dispatch time), and the console-error log of caught script
failures. -/
structure ImportResult where
  state : WState
  log : List Nat
  trace : List (Ev × Dom)
  errors : List String
deriving Repr, DecidableEq

/-- `ImportComponent.import` (lines 121-152). `content` is the child list
of the fragment produced by `getFromContent` after any script execution
side effects inside the fragment (scripts run before the `#NODES` capture
of line 131), and `scripts` is the document-ordered list of directives the
`querySelectorAll('script')` of line 126 finds. Steps, in source order:
clear any owned fragment; quietly stop when no source is configured; run
the directives sequentially with per-directive error capture when the
`scripts` flag is set; capture `childNodes` as the `#NODES` array; dispatch
the bubbling, composed `insert` notification; resolve the target context
and perform the placement switch; dispatch `attach` on the fragment. -/
def ImportComponent.importContent (cfg : Config) (content : List DNode)
    (scripts : List ScriptUnit) (s : WState) (log : List Nat) : ImportResult :=
  let c := ImportComponent.clear s
  if cfg.fromAttr = "" then ⟨c.1, log, c.2, []⟩
  else
    let sc := if cfg.scripts then runScripts scripts log [] else (log, [])
    let f : Frag := ⟨content, content⟩
    let p := placeFragment cfg content c.1.dom
    let f2 : Frag := ⟨if p.2 then [] else content, content⟩
    ⟨⟨p.1, some f2⟩, sc.1,
      c.2 ++ [(Ev.insertEv f, c.1.dom), (Ev.attachEv f2, p.1)], sc.2⟩

/-! Embedding of `ShadowImport` (`src/shadow-import.js`): the fallback
content resolution of `attach` (lines 53-58) and the script branch of
`attach` (lines 63-69). -/

/-- JavaScript `s.split(sep)[0]` for a one-character separator: the part
of the string before the first occurrence of `sep` (all of it when `sep`
does not occur). -/
def splitHeadChars (sep : Char) : List Char → List Char
  | [] => []
  | c :: rest => if c = sep then [] else c :: splitHeadChars sep rest

/-- Line 53: `component.src.split('?')[0].split('#')[0]` strips the query
and fragment suffixes from the source path. -/
def ShadowImport.pathOf (src : String) : String :=
  ⟨splitHeadChars '#' (splitHeadChars '?' src.data)⟩

/-- Line 54: `path.replace(/\.[^\\\/]+$/, '')`. JavaScript `replace` with a
non-global regex removes the leftmost match, i.e. it cuts the string at the
first dot that is followed by one or more characters, none of which is a
slash or a backslash, running to the end of the string. -/
def stemChars : List Char → List Char
  | [] => []
  | c :: rest =>
      if c = '.' ∧ rest ≠ [] ∧ rest.all (fun x => x ≠ '/' ∧ x ≠ '\\') then []
      else c :: stemChars rest

/-- The file stem used for the `.html` / `.htm` / `.css` / `.js` sibling
candidates. -/
def ShadowImport.fileOf (path : String) : String := ⟨stemChars path.data⟩

/-- Outcome of the content resolution: the body text of the first
successful response, or the line-58 failure. -/
inductive LoadOutcome
  | okText (t : String)
  | loadFailed (msg : String)
deriving Repr, DecidableEq

/-- Lines 53-58 of `shadow-import.js`: fetch the exact (query-stripped)
path, then `file + ".html"`, then `file + ".htm"`, in that order; a fetch
is modelled by an oracle returning `some bodyText` for a 2xx response and
`none` otherwise, matching `r.ok ? await r.text() : null` under the `??`
chain. The second component records which URLs were actually requested, in
order, so that short-circuiting of later candidates is observable. -/
def ShadowImport.resolveContent (fetchO : String → Option String) (src : String) :
    LoadOutcome × List String :=
  let path := ShadowImport.pathOf src
  let file := ShadowImport.fileOf path
  match fetchO path with
  | some t => (.okText t, [path])
  | none =>
    match fetchO (file ++ ".html") with
    | some t => (.okText t, [path, file ++ ".html"])
    | none =>
      match fetchO (file ++ ".htm") with
      | some t => (.okText t, [path, file ++ ".html", file ++ ".htm"])
      | none =>
          (.loadFailed ("Failed to load content from " ++ path ++ " or " ++
              file ++ ".html or " ++ file ++ ".htm"),
           [path, file ++ ".html", file ++ ".htm"])

/-- A JavaScript error value, as far as the claims need to distinguish
them: a `TypeError` constructed with a message, or the `ReferenceError`
raised when evaluating an identifier that is bound nowhere in scope. -/
inductive JsErr
  | typeErr (msg : String)
  | refErr (ident : String)
deriving Repr, DecidableEq

/-- The identifiers bound and visible at line 67 of `shadow-import.js`
(the locals of `attach`: `component`, `path`, `file`, `text`, `markup`,
`url`, `module`, `isScript`; the enclosing class and its member; and the
host globals the file uses). The identifier `dassdf` appears nowhere among
them, nor anywhere else in the file as a binding. -/
def ShadowImport.attachScopeIds : List String :=
  ["component", "path", "file", "text", "markup", "url", "module", "isScript",
   "ShadowImport", "ContentScript", "HTMLElement", "TypeError", "Error",
   "CustomEvent", "URL", "fetch", "document", "location", "customElements"]

/-- Evaluating an identifier occurring in an expression: in JavaScript an
identifier bound nowhere in any enclosing scope raises a `ReferenceError`
when evaluated. -/
def evalIdent (x : String) : Except JsErr String :=
  if x ∈ ShadowImport.attachScopeIds then .ok x else .error (.refErr x)

/-- Evaluating the template literal of line 67, whose interpolation
`${dassdf}` must be evaluated before the `TypeError` object can be
constructed from the resulting string. -/
def ShadowImport.badScriptMessage : Except JsErr String :=
  (evalIdent "dassdf").map
    (fun v => "Expected a default export of a ContentScript from " ++ v ++ ".js")

/-- Outcome of the js branch of `ShadowImport.attach` (lines 63-69):
either the default export was instantiated and its `attach` invoked, or an
error escaped before any instantiation. -/
inductive AttachJsOutcome
  | scriptAttached
  | threw (e : JsErr)
deriving Repr, DecidableEq

/-- Lines 66-69 of `shadow-import.js`: `isScript` is the line-66 test that
the module's default export is a subclass of `ShadowImport.ContentScript`.
When it fails, the `throw new TypeError(...)` of line 67 first evaluates
its message template; only if that evaluation succeeded would the
`TypeError` be thrown. Instantiation (line 68) happens only when the test
passes. -/
def ShadowImport.attachJsStep (isScript : Bool) : AttachJsOutcome :=
  if isScript then .scriptAttached
  else
    match ShadowImport.badScriptMessage with
    | .ok msg => .threw (.typeErr msg)
    | .error e => .threw e

/-! Embedding of the attribute-change debouncer of `import-component.js`
(lines 40-52) together with the deferred clear-then-import callback. -/

/-- The four observed attributes of `ImportComponent.observedAttributes`
(line 12); `attributeChangedCallback` only ever fires for these. -/
inductive AttrName
  | fromA | targetA | rerouteA | scriptsA
deriving Repr, DecidableEq

/-- Effect on the configuration of writing attribute `name` with value
`v` (`none` models attribute removal), through the component's getters:
`from` falls back to `''`, `target` to `'insert'`, and the flags are
presence tests. -/
def applyAttr (c : Config) : AttrName → Option String → Config
  | .fromA, v => { c with fromAttr := v.getD "" }
  | .targetA, v => { c with target := v.getD "insert" }
  | .rerouteA, v => { c with reroute := v.isSome }
  | .scriptsA, v => { c with scripts := v.isSome }

/-- One observed-attribute mutation as seen by
`attributeChangedCallback`. -/
structure AttrChange where
  name : AttrName
  oldV : Option String
  newV : Option String
deriving Repr, DecidableEq

/-- Debouncer-aware widget state: controller state, current configuration,
and whether the single `#deferAttributeChange` timeout slot holds a pending
callback. -/
structure DState where
  w : WState
  cfg : Config
  pending : Bool
deriving Repr, DecidableEq

/-- `attributeChangedCallback` (lines 42-52). The attribute write itself
has already landed on the element when the callback fires, so the
configuration is updated first; when the old and new values coincide the
callback returns at line 43; otherwise `clearTimeout` cancels any pending
deferred callback and `setTimeout` installs a fresh one into the single
slot (last-write-wins). -/
def ImportComponent.attributeChanged (s : DState) (ch : AttrChange) : DState :=
  let s2 : DState := { s with cfg := applyAttr s.cfg ch.name ch.newV }
  if ch.oldV = ch.newV then s2
  else { s2 with pending := true }

/-- Folding a burst of attribute mutations arriving within one scheduling
tick, before the deferred callback gets to run. -/
def applyChanges (s : DState) (cs : List AttrChange) : DState :=
  cs.foldl ImportComponent.attributeChanged s

/-- Result of letting the scheduler fire the pending deferred callback:
updated state, script log, dispatched events, and how many
clear-then-import cycles ran. -/
structure TickResult where
  d : DState
  log : List Nat
  trace : List (Ev × Dom)
  cycles : Nat
deriving Repr, DecidableEq

/-- The end of the current scheduling tick: the deferred callback of lines
46-50 runs at most once (there is a single timeout slot). It returns
immediately when `#context` is null, and otherwise performs
`ImportComponent.clear` then `ImportComponent.import`, reading the
configuration as it is at callback time. `contentOf` and `scriptsOf` give
the fragment content and directive list that `getFromContent` would
produce for a configuration. -/
def runTick (contentOf : Config → List DNode) (scriptsOf : Config → List ScriptUnit)
    (s : DState) (log : List Nat) : TickResult :=
  if s.pending then
    if s.w.ctx.isNone then ⟨{ s with pending := false }, log, [], 0⟩
    else
      let c := ImportComponent.clear s.w
      let r := ImportComponent.importContent s.cfg (contentOf s.cfg) (scriptsOf s.cfg) c.1 log
      ⟨⟨r.state, s.cfg, false⟩, r.log, c.2 ++ r.trace, 1⟩
  else ⟨s, log, [], 0⟩

/-! Helper lemmas about the node bookkeeping. -/

/-- Removing all members of a node list from every region of the DOM at
once; `clearLoop` realises exactly this on its DOM component. -/
def filterDom (ns : List DNode) (d : Dom) : Dom :=
  { hasParent := d.hasParent
    siblingsBefore := d.siblingsBefore.filter (fun x => x ∉ ns)
    siblingsAfter := d.siblingsAfter.filter (fun x => x ∉ ns)
    compChildren := d.compChildren.filter (fun x => x ∉ ns)
    shadow := d.shadow.filter (fun x => x ∉ ns)
    roots := d.roots.map (fun r => r.map (fun l => l.filter (fun x => x ∉ ns))) }

lemma filter_ne_filter (n : DNode) (ns l : List DNode) :
    (l.filter (fun x => x ≠ n)).filter (fun x => x ∉ ns)
      = l.filter (fun x => x ∉ n :: ns) := by
  rw [List.filter_filter]
  apply List.filter_congr
  intro a _
  by_cases h1 : a = n <;> by_cases h2 : a ∈ ns <;> simp [h1, h2]

lemma filter_not_mem_nil (l : List DNode) :
    l.filter (fun x => x ∉ ([] : List DNode)) = l :=
  List.filter_eq_self.mpr (by simp)

lemma filterDom_nil (d : Dom) : filterDom [] d = d := by
  have hopt : ∀ r : Option (List DNode),
      r.map (fun l => l.filter (fun x => x ∉ ([] : List DNode))) = r := by
    intro r; cases r <;> simp [filter_not_mem_nil]
  simp [filterDom, filter_not_mem_nil, hopt]

lemma filterDom_cons (n : DNode) (ns : List DNode) (d : Dom) :
    filterDom ns (d.removeNode n) = filterDom (n :: ns) d := by
  have hopt : ∀ r : Option (List DNode),
      ((r.map (fun l => l.filter (fun x => x ≠ n))).map
          (fun l => l.filter (fun x => x ∉ ns)))
        = r.map (fun l => l.filter (fun x => x ∉ n :: ns)) := by
    intro r
    cases r with
    | none => rfl
    | some l => exact congrArg some (filter_ne_filter n ns l)
  refine Dom.ext rfl (filter_ne_filter n ns _) (filter_ne_filter n ns _)
    (filter_ne_filter n ns _) (filter_ne_filter n ns _) ?_
  show (d.roots.map _).map _ = _
  rw [List.map_map]
  exact List.map_congr_left (fun r _ => hopt r)

/-- The DOM component of the clear loop: every recorded node ends up
removed from every region. -/
lemma clearLoop_snd (ns : List DNode) : ∀ ch d,
    (clearLoop ns ch d).2 = filterDom ns d := by
  induction ns with
  | nil => intro ch d; simp [clearLoop, filterDom_nil]
  | cons n rest ih =>
      intro ch d
      simp [clearLoop, ih, filterDom_cons]

/-- The fragment component of the clear loop: the nodes come back in the
captured order, appended after whatever of the old child list was not
itself recorded. -/
lemma clearLoop_fst (ns : List DNode) : ∀ ch d, ns.Nodup →
    (clearLoop ns ch d).1 = ch.filter (fun x => x ∉ ns) ++ ns := by
  induction ns with
  | nil => intro ch d _; simp [clearLoop, filter_not_mem_nil]
  | cons n rest ih =>
      intro ch d hnd
      have hn : n ∉ rest := (List.nodup_cons.mp hnd).1
      have hr : rest.Nodup := (List.nodup_cons.mp hnd).2
      simp only [clearLoop, ih _ _ hr, List.filter_append, filter_ne_filter]
      simp [List.filter_cons, hn]

lemma mem_flatten_roots {roots : List (Option (List DNode))} {x : DNode} :
    x ∈ (roots.map (fun r => r.getD [])).flatten ↔ ∃ l, some l ∈ roots ∧ x ∈ l := by
  simp only [List.mem_flatten, List.mem_map]
  constructor
  · rintro ⟨l, ⟨r, hr, rfl⟩, hx⟩
    cases r with
    | none => simp at hx
    | some l2 => exact ⟨l2, hr, hx⟩
  · rintro ⟨l, hl, hx⟩
    exact ⟨l, ⟨some l, hl, rfl⟩, hx⟩

lemma mem_allNodes_iff {d : Dom} {x : DNode} :
    x ∈ d.allNodes ↔ x ∈ d.siblingsBefore ∨ x ∈ d.siblingsAfter ∨ x ∈ d.compChildren ∨
      x ∈ d.shadow ∨ ∃ l, some l ∈ d.roots ∧ x ∈ l := by
  simp only [Dom.allNodes, List.mem_append, mem_flatten_roots, or_assoc]

lemma filter_not_mem_self (l : List DNode) : l.filter (fun x => x ∉ l) = [] := by
  apply List.filter_eq_nil_iff.mpr
  intro a ha
  simp [ha]

lemma filterDom_of_disjoint {ns : List DNode} {d : Dom}
    (h : ∀ n ∈ ns, n ∉ d.allNodes) : filterDom ns d = d := by
  have key : ∀ l : List DNode, (∀ x ∈ l, x ∈ d.allNodes) →
      l.filter (fun x => x ∉ ns) = l := by
    intro l hl
    apply List.filter_eq_self.mpr
    intro a ha
    simp only [decide_eq_true_eq]
    intro hmem
    exact h a hmem (hl a ha)
  refine Dom.ext rfl
    (key _ (fun x hx => mem_allNodes_iff.mpr (Or.inl hx)))
    (key _ (fun x hx => mem_allNodes_iff.mpr (Or.inr (Or.inl hx))))
    (key _ (fun x hx => mem_allNodes_iff.mpr (Or.inr (Or.inr (Or.inl hx)))))
    (key _ (fun x hx => mem_allNodes_iff.mpr (Or.inr (Or.inr (Or.inr (Or.inl hx))))))
    ?_
  show d.roots.map _ = d.roots
  conv_rhs => rw [← List.map_id d.roots]
  apply List.map_congr_left
  intro r hr
  cases r with
  | none => rfl
  | some l =>
      exact congrArg some (key l (fun x hx =>
        mem_allNodes_iff.mpr (Or.inr (Or.inr (Or.inr (Or.inr ⟨l, hr, hx⟩))))))

lemma filter_append_self (a content : List DNode) :
    (a ++ content).filter (fun x => x ∉ content) = a.filter (fun x => x ∉ content) := by
  rw [List.filter_append, filter_not_mem_self, List.append_nil]

lemma filter_self_append (a content : List DNode) :
    (content ++ a).filter (fun x => x ∉ content) = a.filter (fun x => x ∉ content) := by
  rw [List.filter_append, filter_not_mem_self, List.nil_append]

lemma chainInsert_filter (content : List DNode) (roots : List (Option (List DNode))) :
    (chainInsert content roots).map (fun r => r.map (fun l => l.filter (fun x => x ∉ content)))
      = roots.map (fun r => r.map (fun l => l.filter (fun x => x ∉ content))) := by
  induction roots with
  | nil => rfl
  | cons r rest ih =>
      cases r with
      | none => exact congrArg (List.cons none) ih
      | some l =>
          show some ((l ++ content).filter (fun x => x ∉ content)) :: _
              = some (l.filter (fun x => x ∉ content)) :: _
          rw [filter_append_self]

lemma filterDom_place (cfg : Config) (content : List DNode) (d : Dom) :
    filterDom content (placeFragment cfg content d).1 = filterDom content d := by
  unfold placeFragment
  by_cases h1 : cfg.target = "shadow"
  · rw [if_pos h1]
    exact Dom.ext rfl rfl rfl rfl (filter_append_self _ _) rfl
  rw [if_neg h1]
  by_cases h2 : cfg.target = "insert"
  · rw [if_pos h2]
    exact Dom.ext rfl rfl rfl (filter_append_self _ _) rfl rfl
  rw [if_neg h2]
  by_cases h3 : cfg.target = "before"
  · rw [if_pos h3]
    by_cases hp : d.hasParent
    · rw [if_pos hp]
      exact Dom.ext rfl (filter_append_self _ _) rfl rfl rfl rfl
    · rw [if_neg hp]
  rw [if_neg h3]
  by_cases h4 : cfg.target = "after"
  · rw [if_pos h4]
    by_cases hp : d.hasParent
    · rw [if_pos hp]
      exact Dom.ext rfl rfl (filter_self_append _ _) rfl rfl rfl
    · rw [if_neg hp]
  rw [if_neg h4]
  rcases hcf : chainFind d.roots with _ | l
  · rfl
  · exact Dom.ext rfl rfl rfl rfl rfl (chainInsert_filter content d.roots)

lemma not_mem_allNodes_filterDom {n : DNode} {ns : List DNode} (d : Dom) (h : n ∈ ns) :
    n ∉ (filterDom ns d).allNodes := by
  have hc : ∀ l : List DNode, n ∈ l.filter (fun x => x ∉ ns) → False := by
    intro l hl
    have := (List.mem_filter.mp hl).2
    simp [h] at this
  intro hmem
  rcases mem_allNodes_iff.mp hmem with h1 | h2 | h3 | h4 | ⟨l, hl, hx⟩
  · exact hc _ h1
  · exact hc _ h2
  · exact hc _ h3
  · exact hc _ h4
  · rcases List.mem_map.mp hl with ⟨r, hr, hrl⟩
    cases r with
    | none => simp at hrl
    | some l0 =>
        have : l = l0.filter (fun x => x ∉ ns) := by
          simpa using hrl.symm
        exact hc l0 (this ▸ hx)

lemma mem_chainInsert {content : List DNode} {roots : List (Option (List DNode))}
    {l : List DNode} (h : some l ∈ chainInsert content roots) :
    some l ∈ roots ∨ ∃ l0, some l0 ∈ roots ∧ l = l0 ++ content := by
  induction roots with
  | nil => simp [chainInsert] at h
  | cons r rest ih =>
      cases r with
      | none =>
          rcases List.mem_cons.mp h with h1 | h1
          · exact absurd h1.symm (by simp)
          · rcases ih h1 with h2 | ⟨l0, hl0, rfl⟩
            · exact Or.inl (List.mem_cons_of_mem _ h2)
            · exact Or.inr ⟨l0, List.mem_cons_of_mem _ hl0, rfl⟩
      | some l1 =>
          rcases List.mem_cons.mp h with h1 | h1
          · have : l = l1 ++ content := by simpa using h1
            exact Or.inr ⟨l1, List.mem_cons_self _ _, this⟩
          · exact Or.inl (List.mem_cons_of_mem _ h1)

lemma not_mem_allNodes_place {n : DNode} (cfg : Config) {content : List DNode} {d : Dom}
    (h1 : n ∉ d.allNodes) (h2 : n ∉ content) :
    n ∉ ((placeFragment cfg content d).1).allNodes := by
  have hsb : n ∉ d.siblingsBefore := fun h => h1 (mem_allNodes_iff.mpr (Or.inl h))
  have hsa : n ∉ d.siblingsAfter := fun h => h1 (mem_allNodes_iff.mpr (Or.inr (Or.inl h)))
  have hcc : n ∉ d.compChildren := fun h => h1 (mem_allNodes_iff.mpr (Or.inr (Or.inr (Or.inl h))))
  have hsh : n ∉ d.shadow := fun h => h1 (mem_allNodes_iff.mpr (Or.inr (Or.inr (Or.inr (Or.inl h)))))
  have hrt : ∀ l, some l ∈ d.roots → n ∉ l := fun l hl hx =>
    h1 (mem_allNodes_iff.mpr (Or.inr (Or.inr (Or.inr (Or.inr ⟨l, hl, hx⟩)))))
  intro hmem
  unfold placeFragment at hmem
  by_cases t1 : cfg.target = "shadow"
  · rw [if_pos t1] at hmem
    rcases mem_allNodes_iff.mp hmem with g | g | g | g | ⟨l, hl, hx⟩
    · exact hsb g
    · exact hsa g
    · exact hcc g
    · rcases List.mem_append.mp g with g | g
      · exact hsh g
      · exact h2 g
    · exact hrt l hl hx
  rw [if_neg t1] at hmem
  by_cases t2 : cfg.target = "insert"
  · rw [if_pos t2] at hmem
    rcases mem_allNodes_iff.mp hmem with g | g | g | g | ⟨l, hl, hx⟩
    · exact hsb g
    · exact hsa g
    · rcases List.mem_append.mp g with g | g
      · exact hcc g
      · exact h2 g
    · exact hsh g
    · exact hrt l hl hx
  rw [if_neg t2] at hmem
  by_cases t3 : cfg.target = "before"
  · rw [if_pos t3] at hmem
    by_cases hp : d.hasParent
    · rw [if_pos hp] at hmem
      rcases mem_allNodes_iff.mp hmem with g | g | g | g | ⟨l, hl, hx⟩
      · rcases List.mem_append.mp g with g | g
        · exact hsb g
        · exact h2 g
      · exact hsa g
      · exact hcc g
      · exact hsh g
      · exact hrt l hl hx
    · rw [if_neg hp] at hmem
      exact h1 hmem
  rw [if_neg t3] at hmem
  by_cases t4 : cfg.target = "after"
  · rw [if_pos t4] at hmem
    by_cases hp : d.hasParent
    · rw [if_pos hp] at hmem
      rcases mem_allNodes_iff.mp hmem with g | g | g | g | ⟨l, hl, hx⟩
      · exact hsb g
      · rcases List.mem_append.mp g with g | g
        · exact h2 g
        · exact hsa g
      · exact hcc g
      · exact hsh g
      · exact hrt l hl hx
    · rw [if_neg hp] at hmem
      exact h1 hmem
  rw [if_neg t4] at hmem
  rcases hcf : chainFind d.roots with _ | l0
  · rw [hcf] at hmem
    exact h1 hmem
  · rw [hcf] at hmem
    rcases mem_allNodes_iff.mp hmem with g | g | g | g | ⟨l, hl, hx⟩
    · exact hsb g
    · exact hsa g
    · exact hcc g
    · exact hsh g
    · rcases mem_chainInsert hl with g | ⟨l1, hl1, rfl⟩
      · exact hrt l g hx
      · rcases List.mem_append.mp hx with g | g
        · exact hrt l1 hl1 g
        · exact h2 g

lemma chainFind_none {roots : List (Option (List DNode))}
    (h : ∀ r ∈ roots, r = none) : chainFind roots = none := by
  induction roots with
  | nil => rfl
  | cons r rest ih =>
      have hr := h r (List.mem_cons_self _ _)
      subst hr
      exact ih (fun r hr => h r (List.mem_cons_of_mem _ hr))

/-- A directive that appends a marker to the shared log. -/
def appendScript (m : Nat) : ScriptUnit := .runs (fun log => log ++ [m])

lemma runScripts_errs_acc (ss : List ScriptUnit) : ∀ log errs,
    runScripts ss log errs
      = ((runScripts ss log []).1, errs ++ (runScripts ss log []).2) := by
  induction ss with
  | nil => intro log errs; simp [runScripts]
  | cons u rest ih =>
      intro log errs
      cases hu : ImportComponent.executeScript u log with
      | ok log2 =>
          simp only [runScripts, hu]
          exact ih log2 errs
      | error e =>
          simp only [runScripts, hu]
          rw [ih log (errs ++ _), ih log ([] ++ _)]
          simp

lemma runScripts_runs (fs : List (List Nat → List Nat)) : ∀ log errs,
    runScripts (fs.map ScriptUnit.runs) log errs
      = (fs.foldl (fun l f => f l) log, errs) := by
  induction fs with
  | nil => intro log errs; simp [runScripts]
  | cons f rest ih =>
      intro log errs
      simp only [List.map_cons, runScripts, ImportComponent.executeScript, List.foldl_cons]
      exact ih (f log) errs

lemma runScripts_markers (ms : List Nat) : ∀ log errs,
    runScripts (ms.map appendScript) log errs = (log ++ ms, errs) := by
  induction ms with
  | nil => intro log errs; simp [runScripts]
  | cons m rest ih =>
      intro log errs
      simp only [List.map_cons, appendScript, runScripts, ImportComponent.executeScript]
      rw [ih (log ++ [m]) errs]
      simp

/-- Unfolding of one successful-source run of `ImportComponent.import`:
clear first, then scripts, then the `insert` notification against the
pre-placement DOM, then placement, then `attach` against the
post-placement DOM. -/
lemma importContent_eq (cfg : Config) (content : List DNode) (scripts : List ScriptUnit)
    (s : WState) (log : List Nat) (h : cfg.fromAttr ≠ "") :
    ImportComponent.importContent cfg content scripts s log =
      { state := ⟨(placeFragment cfg content (ImportComponent.clear s).1.dom).1,
          some ⟨if (placeFragment cfg content (ImportComponent.clear s).1.dom).2 then []
                else content, content⟩⟩
        log := (if cfg.scripts then runScripts scripts log [] else (log, [])).1
        trace := (ImportComponent.clear s).2 ++
          [(Ev.insertEv ⟨content, content⟩, (ImportComponent.clear s).1.dom),
           (Ev.attachEv ⟨if (placeFragment cfg content (ImportComponent.clear s).1.dom).2 then []
                         else content, content⟩,
            (placeFragment cfg content (ImportComponent.clear s).1.dom).1)]
        errors := (if cfg.scripts then runScripts scripts log [] else (log, [])).2 } := by
  simp [ImportComponent.importContent, h]

lemma applyChanges_w (cs : List AttrChange) : ∀ s : DState,
    (applyChanges s cs).w = s.w := by
  induction cs with
  | nil => intro s; rfl
  | cons c t ih =>
      intro s
      rw [applyChanges, List.foldl_cons, ← applyChanges]
      rw [ih]
      unfold ImportComponent.attributeChanged
      by_cases h : c.oldV = c.newV <;> simp [h]

lemma applyChanges_cfg (cs : List AttrChange) : ∀ s : DState,
    (applyChanges s cs).cfg
      = cs.foldl (fun c ch => applyAttr c ch.name ch.newV) s.cfg := by
  induction cs with
  | nil => intro s; rfl
  | cons c t ih =>
      intro s
      rw [applyChanges, List.foldl_cons, ← applyChanges, ih, List.foldl_cons]
      unfold ImportComponent.attributeChanged
      by_cases h : c.oldV = c.newV <;> simp [h]

lemma applyChanges_pending (cs : List AttrChange) : ∀ s : DState, cs ≠ [] →
    (∀ ch ∈ cs, ch.oldV ≠ ch.newV) → (applyChanges s cs).pending = true := by
  induction cs with
  | nil => intro s h _; exact absurd rfl h
  | cons c t ih =>
      intro s _ hall
      rw [applyChanges, List.foldl_cons, ← applyChanges]
      cases t with
      | nil =>
          show (ImportComponent.attributeChanged s c).pending = true
          unfold ImportComponent.attributeChanged
          simp [hall c (List.mem_cons_self _ _)]
      | cons c2 t2 =>
          exact ih _ (by simp) (fun ch h => hall ch (List.mem_cons_of_mem _ h))

lemma clear_some (d : Dom) (ch ns : List DNode) :
    ImportComponent.clear ⟨d, some ⟨ch, ns⟩⟩ =
      (⟨(clearLoop ns ch d).2, none⟩,
       [(Ev.removeEv ⟨(clearLoop ns ch d).1, []⟩, (clearLoop ns ch d).2),
        (Ev.detachEv ⟨(clearLoop ns ch d).1, []⟩, (clearLoop ns ch d).2)]) := rfl

lemma importContent_none (cfg : Config) (content : List DNode) (scripts : List ScriptUnit)
    (d : Dom) (log : List Nat) (h : cfg.fromAttr ≠ "") :
    ImportComponent.importContent cfg content scripts ⟨d, none⟩ log =
      { state := ⟨(placeFragment cfg content d).1,
          some ⟨if (placeFragment cfg content d).2 then [] else content, content⟩⟩
        log := (if cfg.scripts then runScripts scripts log [] else (log, [])).1
        trace := [(Ev.insertEv ⟨content, content⟩, d),
           (Ev.attachEv ⟨if (placeFragment cfg content d).2 then [] else content, content⟩,
            (placeFragment cfg content d).1)]
        errors := (if cfg.scripts then runScripts scripts log [] else (log, [])).2 } := by
  simp [ImportComponent.importContent, ImportComponent.clear, h]

/-- C1: for every widget whose fragment was successfully imported, under
any placement kind (the `target` string is arbitrary here, covering
`insert`, `before`, `after`, `shadow` and both resolved and unresolved
query selectors), calling `clear` detaches exactly the node set the import
captured in the `#NODES` list — the `detach` notification carries precisely
the captured sequence, complete and without duplication — and the
surrounding DOM returns to its exact pre-import structure. -/
theorem c1_clear_after_import_roundtrip
    (cfg : Config) (content : List DNode) (scripts : List ScriptUnit)
    (d : Dom) (log : List Nat)
    (hfrom : cfg.fromAttr ≠ "")
    (hnd : content.Nodup)
    (hdisj : ∀ n ∈ content, n ∉ d.allNodes) :
    ImportComponent.clear
        (ImportComponent.importContent cfg content scripts ⟨d, none⟩ log).state
      = ((⟨d, none⟩ : WState),
         [(Ev.removeEv ⟨content, []⟩, d), (Ev.detachEv ⟨content, []⟩, d)]) := by
  have hstate : (ImportComponent.importContent cfg content scripts ⟨d, none⟩ log).state
      = ⟨(placeFragment cfg content d).1,
         some ⟨if (placeFragment cfg content d).2 then [] else content, content⟩⟩ := by
    rw [importContent_none cfg content scripts d log hfrom]
  have hdom : (clearLoop content (if (placeFragment cfg content d).2 then [] else content)
      (placeFragment cfg content d).1).2 = d := by
    rw [clearLoop_snd, filterDom_place, filterDom_of_disjoint hdisj]
  have hfst : (clearLoop content (if (placeFragment cfg content d).2 then [] else content)
      (placeFragment cfg content d).1).1 = content := by
    rw [clearLoop_fst _ _ _ hnd]
    by_cases hb : (placeFragment cfg content d).2 <;>
      simp [hb, filter_not_mem_self]
  rw [hstate, clear_some, hdom, hfst]

theorem c1_witness :
    ((⟨"tpl", "#slot", false, false⟩ : Config).fromAttr ≠ "" ∧
      ([1, 2] : List DNode).Nodup ∧
      (∀ n ∈ ([1, 2] : List DNode),
        n ∉ (⟨true, [3], [4], [5], [6], [none, some [7]]⟩ : Dom).allNodes)) ∧
    ImportComponent.clear
        (ImportComponent.importContent ⟨"tpl", "#slot", false, false⟩ [1, 2] []
          ⟨⟨true, [3], [4], [5], [6], [none, some [7]]⟩, none⟩ []).state
      = ((⟨⟨true, [3], [4], [5], [6], [none, some [7]]⟩, none⟩ : WState),
         [(Ev.removeEv ⟨[1, 2], []⟩, ⟨true, [3], [4], [5], [6], [none, some [7]]⟩),
          (Ev.detachEv ⟨[1, 2], []⟩, ⟨true, [3], [4], [5], [6], [none, some [7]]⟩)]) :=
  ⟨⟨by decide, by decide, by decide⟩,
   c1_clear_after_import_roundtrip _ _ _ _ _ (by decide) (by decide) (by decide)⟩

lemma clear_some_frag (d : Dom) (f : Frag) :
    ImportComponent.clear ⟨d, some f⟩ =
      (⟨(clearFrag f d).2, none⟩,
       [(Ev.removeEv (clearFrag f d).1, (clearFrag f d).2),
        (Ev.detachEv (clearFrag f d).1, (clearFrag f d).2)]) := rfl

lemma importContent_noFrom (cfg : Config) (content : List DNode) (scripts : List ScriptUnit)
    (s : WState) (log : List Nat) (h : cfg.fromAttr = "") :
    ImportComponent.importContent cfg content scripts s log
      = ⟨(ImportComponent.clear s).1, log, (ImportComponent.clear s).2, []⟩ := by
  simp [ImportComponent.importContent, h]

lemma importContent_some (cfg : Config) (content : List DNode) (scripts : List ScriptUnit)
    (d : Dom) (f : Frag) (log : List Nat) (h : cfg.fromAttr ≠ "") :
    ImportComponent.importContent cfg content scripts ⟨d, some f⟩ log =
      { state := ⟨(placeFragment cfg content (clearFrag f d).2).1,
          some ⟨if (placeFragment cfg content (clearFrag f d).2).2 then []
                else content, content⟩⟩
        log := (if cfg.scripts then runScripts scripts log [] else (log, [])).1
        trace := [(Ev.removeEv (clearFrag f d).1, (clearFrag f d).2),
           (Ev.detachEv (clearFrag f d).1, (clearFrag f d).2),
           (Ev.insertEv ⟨content, content⟩, (clearFrag f d).2),
           (Ev.attachEv ⟨if (placeFragment cfg content (clearFrag f d).2).2 then []
                         else content, content⟩,
            (placeFragment cfg content (clearFrag f d).2).1)]
        errors := (if cfg.scripts then runScripts scripts log [] else (log, [])).2 } := by
  simp [ImportComponent.importContent, ImportComponent.clear, h]

/-- C2: an `import` on a controller that owns a fragment begins by
performing `clear` on it: the first two dispatched events are the clear's
`remove`/`detach` pair, every recorded node of the old fragment is already
detached from the DOM at the moment the `insert` notification fires, the
old nodes (when not reused inside the new content) stay absent from the
final DOM, and after the import the controller owns at most the single new
fragment — a second fragment is never inserted while one is live. -/
theorem c2_import_clears_owned_fragment_first
    (cfg : Config) (content : List DNode) (scripts : List ScriptUnit)
    (d : Dom) (f : Frag) (log : List Nat)
    (hdisj : ∀ n ∈ f.nodesRec, n ∉ content) :
    (ImportComponent.importContent cfg content scripts ⟨d, some f⟩ log).trace.take 2
      = [(Ev.removeEv (clearFrag f d).1, (clearFrag f d).2),
         (Ev.detachEv (clearFrag f d).1, (clearFrag f d).2)] ∧
    (∀ n ∈ f.nodesRec, n ∉ ((clearFrag f d).2).allNodes) ∧
    (∀ n ∈ f.nodesRec,
        n ∉ ((ImportComponent.importContent cfg content scripts
              ⟨d, some f⟩ log).state.dom).allNodes) ∧
    ((ImportComponent.importContent cfg content scripts ⟨d, some f⟩ log).state.ctx
        = none ∨
      (ImportComponent.importContent cfg content scripts ⟨d, some f⟩ log).state.ctx
        = some ⟨if (placeFragment cfg content (clearFrag f d).2).2 then []
                else content, content⟩) := by
  have habs : ∀ n ∈ f.nodesRec, n ∉ ((clearFrag f d).2).allNodes := by
    intro n hn
    have h2 : (clearFrag f d).2 = filterDom f.nodesRec d := by
      simp [clearFrag, clearLoop_snd]
    rw [h2]
    exact not_mem_allNodes_filterDom d hn
  by_cases hfa : cfg.fromAttr = ""
  · rw [importContent_noFrom cfg content scripts _ log hfa, clear_some_frag]
    exact ⟨rfl, habs, habs, Or.inl rfl⟩
  · rw [importContent_some cfg content scripts d f log hfa]
    refine ⟨rfl, habs, ?_, Or.inr rfl⟩
    intro n hn
    exact not_mem_allNodes_place cfg (habs n hn) (hdisj n hn)

theorem c2_witness :
    (∀ n ∈ (⟨[], [8, 9]⟩ : Frag).nodesRec, n ∉ ([1, 2] : List DNode)) ∧
    (ImportComponent.importContent ⟨"tpl", "insert", false, false⟩ [1, 2] []
        ⟨⟨true, [], [], [8, 9], [], []⟩, some ⟨[], [8, 9]⟩⟩ []).trace.take 2
      = [(Ev.removeEv (clearFrag ⟨[], [8, 9]⟩ ⟨true, [], [], [8, 9], [], []⟩).1,
          (clearFrag ⟨[], [8, 9]⟩ ⟨true, [], [], [8, 9], [], []⟩).2),
         (Ev.detachEv (clearFrag ⟨[], [8, 9]⟩ ⟨true, [], [], [8, 9], [], []⟩).1,
          (clearFrag ⟨[], [8, 9]⟩ ⟨true, [], [], [8, 9], [], []⟩).2)] ∧
    (∀ n ∈ (⟨[], [8, 9]⟩ : Frag).nodesRec,
        n ∉ ((clearFrag ⟨[], [8, 9]⟩ ⟨true, [], [], [8, 9], [], []⟩).2).allNodes) ∧
    (∀ n ∈ (⟨[], [8, 9]⟩ : Frag).nodesRec,
        n ∉ ((ImportComponent.importContent ⟨"tpl", "insert", false, false⟩ [1, 2] []
              ⟨⟨true, [], [], [8, 9], [], []⟩, some ⟨[], [8, 9]⟩⟩ []).state.dom).allNodes) ∧
    ((ImportComponent.importContent ⟨"tpl", "insert", false, false⟩ [1, 2] []
        ⟨⟨true, [], [], [8, 9], [], []⟩, some ⟨[], [8, 9]⟩⟩ []).state.ctx = none ∨
      (ImportComponent.importContent ⟨"tpl", "insert", false, false⟩ [1, 2] []
        ⟨⟨true, [], [], [8, 9], [], []⟩, some ⟨[], [8, 9]⟩⟩ []).state.ctx
        = some ⟨if (placeFragment ⟨"tpl", "insert", false, false⟩ [1, 2]
                    (clearFrag ⟨[], [8, 9]⟩ ⟨true, [], [], [8, 9], [], []⟩).2).2 then []
                else [1, 2], [1, 2]⟩) :=
  ⟨by decide, c2_import_clears_owned_fragment_first _ _ _ _ _ _ (by decide)⟩

/-- C6: for every placement kind (arbitrary `target` string) the bubbling,
composed `insert` notification is dispatched against the pre-placement DOM
(the cleared DOM, still unchanged by the placement step), and the `attach`
notification is dispatched on the fragment against the post-placement DOM —
so `insert` fires strictly before the DOM placement step and `attach`
strictly after it. -/
theorem c6_insert_before_placement_attach_after
    (cfg : Config) (content : List DNode) (scripts : List ScriptUnit)
    (s : WState) (log : List Nat) (h : cfg.fromAttr ≠ "") :
    (ImportComponent.importContent cfg content scripts s log).trace
      = (ImportComponent.clear s).2 ++
        [(Ev.insertEv ⟨content, content⟩, (ImportComponent.clear s).1.dom),
         (Ev.attachEv ⟨if (placeFragment cfg content (ImportComponent.clear s).1.dom).2
                       then [] else content, content⟩,
          (placeFragment cfg content (ImportComponent.clear s).1.dom).1)] ∧
    (ImportComponent.importContent cfg content scripts s log).state.dom
      = (placeFragment cfg content (ImportComponent.clear s).1.dom).1 := by
  rw [importContent_eq cfg content scripts s log h]
  exact ⟨rfl, rfl⟩

theorem c6_witness :
    ((⟨"u", "shadow", false, false⟩ : Config).fromAttr ≠ "") ∧
    (ImportComponent.importContent ⟨"u", "shadow", false, false⟩ [1] []
        ⟨⟨true, [], [], [], [], []⟩, none⟩ []).trace
      = (ImportComponent.clear ⟨⟨true, [], [], [], [], []⟩, none⟩).2 ++
        [(Ev.insertEv ⟨[1], [1]⟩,
          (ImportComponent.clear ⟨⟨true, [], [], [], [], []⟩, none⟩).1.dom),
         (Ev.attachEv ⟨if (placeFragment ⟨"u", "shadow", false, false⟩ [1]
              (ImportComponent.clear ⟨⟨true, [], [], [], [], []⟩, none⟩).1.dom).2
              then [] else [1], [1]⟩,
          (placeFragment ⟨"u", "shadow", false, false⟩ [1]
            (ImportComponent.clear ⟨⟨true, [], [], [], [], []⟩, none⟩).1.dom).1)] ∧
    (ImportComponent.importContent ⟨"u", "shadow", false, false⟩ [1] []
        ⟨⟨true, [], [], [], [], []⟩, none⟩ []).state.dom
      = (placeFragment ⟨"u", "shadow", false, false⟩ [1]
          (ImportComponent.clear ⟨⟨true, [], [], [], [], []⟩, none⟩).1.dom).1 :=
  ⟨by decide, c6_insert_before_placement_attach_after _ _ _ _ _ (by decide)⟩

/-- C8: when the target is a query selector (none of the four placement
keywords) and no root of the outward scope chain matches it, target
resolution returns null, the import still completes — the `insert`
notification fires carrying the fully constructed fragment and `attach`
follows — no structural DOM insertion happens (the DOM is unchanged), no
error is raised, and the controller keeps the fragment with its children
still inside it. -/
theorem c8_null_selector_import_completes
    (cfg : Config) (content : List DNode) (scripts : List ScriptUnit)
    (d : Dom) (log : List Nat)
    (hfrom : cfg.fromAttr ≠ "")
    (ht1 : cfg.target ≠ "insert") (ht2 : cfg.target ≠ "before")
    (ht3 : cfg.target ≠ "after") (ht4 : cfg.target ≠ "shadow")
    (hroots : ∀ r ∈ d.roots, r = none) :
    ImportComponent.getTargetContext cfg d = TargetCtx.nullTarget ∧
    (ImportComponent.importContent cfg content scripts ⟨d, none⟩ log).state.dom = d ∧
    (ImportComponent.importContent cfg content scripts ⟨d, none⟩ log).trace
      = [(Ev.insertEv ⟨content, content⟩, d), (Ev.attachEv ⟨content, content⟩, d)] ∧
    (ImportComponent.importContent cfg content scripts ⟨d, none⟩ log).state.ctx
      = some ⟨content, content⟩ := by
  have hcf : chainFind d.roots = none := chainFind_none hroots
  have hplace : placeFragment cfg content d = (d, false) := by
    unfold placeFragment
    rw [if_neg ht4, if_neg ht1, if_neg ht2, if_neg ht3, hcf]
  have hgt : ImportComponent.getTargetContext cfg d = TargetCtx.nullTarget := by
    unfold ImportComponent.getTargetContext
    rw [if_neg ht1, if_neg ht2, if_neg ht3, if_neg ht4, hcf]
  refine ⟨hgt, ?_, ?_, ?_⟩ <;>
    simp [importContent_none cfg content scripts d log hfrom, hplace]

theorem c8_witness :
    ((⟨"u", "#nowhere", false, false⟩ : Config).fromAttr ≠ "" ∧
      (⟨"u", "#nowhere", false, false⟩ : Config).target ≠ "insert" ∧
      (⟨"u", "#nowhere", false, false⟩ : Config).target ≠ "before" ∧
      (⟨"u", "#nowhere", false, false⟩ : Config).target ≠ "after" ∧
      (⟨"u", "#nowhere", false, false⟩ : Config).target ≠ "shadow" ∧
      (∀ r ∈ (⟨true, [3], [], [], [], [none, none]⟩ : Dom).roots, r = none)) ∧
    (ImportComponent.getTargetContext ⟨"u", "#nowhere", false, false⟩
        ⟨true, [3], [], [], [], [none, none]⟩ = TargetCtx.nullTarget ∧
      (ImportComponent.importContent ⟨"u", "#nowhere", false, false⟩ [1, 2] []
          ⟨⟨true, [3], [], [], [], [none, none]⟩, none⟩ []).state.dom
        = ⟨true, [3], [], [], [], [none, none]⟩ ∧
      (ImportComponent.importContent ⟨"u", "#nowhere", false, false⟩ [1, 2] []
          ⟨⟨true, [3], [], [], [], [none, none]⟩, none⟩ []).trace
        = [(Ev.insertEv ⟨[1, 2], [1, 2]⟩, ⟨true, [3], [], [], [], [none, none]⟩),
           (Ev.attachEv ⟨[1, 2], [1, 2]⟩, ⟨true, [3], [], [], [], [none, none]⟩)] ∧
      (ImportComponent.importContent ⟨"u", "#nowhere", false, false⟩ [1, 2] []
          ⟨⟨true, [3], [], [], [], [none, none]⟩, none⟩ []).state.ctx
        = some ⟨[1, 2], [1, 2]⟩) :=
  ⟨⟨by decide, by decide, by decide, by decide, by decide, by decide⟩,
   c8_null_selector_import_completes _ _ _ _ _
     (by decide) (by decide) (by decide) (by decide) (by decide) (by decide)⟩

/-- C4: a directive whose resolved unit fails (not invocable, or its
invocation throws) is caught per directive and logged with the console
prefix of line 128: the import result equals the import without the bad
directive except for the prepended error entry — every remaining directive
still executes with the same effect, and the `insert` notification and the
placement step still run, so one bad script never aborts the overall
import. -/
theorem c4_script_failure_isolated
    (cfg : Config) (content : List DNode) (s : WState) (log : List Nat)
    (bad : ScriptUnit) (rest : List ScriptUnit) (e : String)
    (hfrom : cfg.fromAttr ≠ "") (hs : cfg.scripts = true)
    (hbad : ImportComponent.executeScript bad log = .error e) :
    ImportComponent.importContent cfg content (bad :: rest) s log
      = { state := (ImportComponent.importContent cfg content rest s log).state
          log := (ImportComponent.importContent cfg content rest s log).log
          trace := (ImportComponent.importContent cfg content rest s log).trace
          errors := ("Error executing imported script: " ++ e)
            :: (ImportComponent.importContent cfg content rest s log).errors } ∧
    (ImportComponent.importContent cfg content (bad :: rest) s log).trace
      = (ImportComponent.clear s).2 ++
        [(Ev.insertEv ⟨content, content⟩, (ImportComponent.clear s).1.dom),
         (Ev.attachEv ⟨if (placeFragment cfg content (ImportComponent.clear s).1.dom).2
                       then [] else content, content⟩,
          (placeFragment cfg content (ImportComponent.clear s).1.dom).1)] := by
  have hrs : runScripts (bad :: rest) log []
      = ((runScripts rest log []).1,
         ("Error executing imported script: " ++ e) :: (runScripts rest log []).2) := by
    simp only [runScripts, hbad]
    rw [runScripts_errs_acc rest log]
    simp
  constructor
  · rw [importContent_eq cfg content (bad :: rest) s log hfrom,
        importContent_eq cfg content rest s log hfrom]
    simp [hs, hrs]
  · rw [importContent_eq cfg content (bad :: rest) s log hfrom]

theorem c4_witness :
    ((⟨"u", "insert", true, false⟩ : Config).fromAttr ≠ "" ∧
      (⟨"u", "insert", true, false⟩ : Config).scripts = true ∧
      ImportComponent.executeScript ScriptUnit.notInvocable []
        = Except.error "Script content is not a valid function") ∧
    (ImportComponent.importContent ⟨"u", "insert", true, false⟩ [1]
        (ScriptUnit.notInvocable :: [appendScript 7]) ⟨⟨true, [], [], [], [], []⟩, none⟩ []
      = { state := (ImportComponent.importContent ⟨"u", "insert", true, false⟩ [1]
            [appendScript 7] ⟨⟨true, [], [], [], [], []⟩, none⟩ []).state
          log := (ImportComponent.importContent ⟨"u", "insert", true, false⟩ [1]
            [appendScript 7] ⟨⟨true, [], [], [], [], []⟩, none⟩ []).log
          trace := (ImportComponent.importContent ⟨"u", "insert", true, false⟩ [1]
            [appendScript 7] ⟨⟨true, [], [], [], [], []⟩, none⟩ []).trace
          errors := ("Error executing imported script: "
              ++ "Script content is not a valid function")
            :: (ImportComponent.importContent ⟨"u", "insert", true, false⟩ [1]
                [appendScript 7] ⟨⟨true, [], [], [], [], []⟩, none⟩ []).errors } ∧
      (ImportComponent.importContent ⟨"u", "insert", true, false⟩ [1]
          (ScriptUnit.notInvocable :: [appendScript 7])
          ⟨⟨true, [], [], [], [], []⟩, none⟩ []).trace
        = (ImportComponent.clear ⟨⟨true, [], [], [], [], []⟩, none⟩).2 ++
          [(Ev.insertEv ⟨[1], [1]⟩,
            (ImportComponent.clear ⟨⟨true, [], [], [], [], []⟩, none⟩).1.dom),
           (Ev.attachEv ⟨if (placeFragment ⟨"u", "insert", true, false⟩ [1]
                (ImportComponent.clear ⟨⟨true, [], [], [], [], []⟩, none⟩).1.dom).2
                then [] else [1], [1]⟩,
            (placeFragment ⟨"u", "insert", true, false⟩ [1]
              (ImportComponent.clear ⟨⟨true, [], [], [], [], []⟩, none⟩).1.dom).1)]) :=
  ⟨⟨by decide, by decide, rfl⟩,
   c4_script_failure_isolated _ _ _ _ _ _ _ (by decide) (by decide) rfl⟩

/-- C5: with script processing enabled the directives run strictly one at
a time in document order: the resulting shared log is the left fold of the
directive bodies over the initial log — each directive is fully applied
before the next begins, a later one observing every earlier effect — and
in particular marker-appending directives leave the log reading exactly the
markers in document order, never interleaved or reordered. -/
theorem c5_scripts_sequential_in_document_order
    (cfg : Config) (content : List DNode) (fs : List (List Nat → List Nat))
    (s : WState) (log : List Nat)
    (hfrom : cfg.fromAttr ≠ "") (hs : cfg.scripts = true) :
    (ImportComponent.importContent cfg content (fs.map ScriptUnit.runs) s log).log
      = fs.foldl (fun l f => f l) log ∧
    ∀ ms : List Nat,
      (ImportComponent.importContent cfg content (ms.map appendScript) s log).log
        = log ++ ms := by
  constructor
  · rw [importContent_eq cfg content (fs.map ScriptUnit.runs) s log hfrom]
    simp [hs, runScripts_runs]
  · intro ms
    rw [importContent_eq cfg content (ms.map appendScript) s log hfrom]
    simp [hs, runScripts_markers]

theorem c5_witness :
    ((⟨"u", "insert", true, false⟩ : Config).fromAttr ≠ "" ∧
      (⟨"u", "insert", true, false⟩ : Config).scripts = true) ∧
    (ImportComponent.importContent ⟨"u", "insert", true, false⟩ [1]
        ([10, 20].map appendScript) ⟨⟨true, [], [], [], [], []⟩, none⟩ []).log
      = [] ++ [10, 20] :=
  ⟨⟨by decide, by decide⟩,
   (c5_scripts_sequential_in_document_order ⟨"u", "insert", true, false⟩ [1] []
     ⟨⟨true, [], [], [], [], []⟩, none⟩ [] (by decide) (by decide)).2 [10, 20]⟩

/-- C7: a burst of N observed-attribute changes (each with old value
differing from new) within one scheduling tick, on a widget that owns
content, collapses into exactly one deferred clear-then-import cycle: the
tick runs one cycle, a following tick runs none, the configuration used is
the fold of all the writes (last-write-wins), and the cycle's result is
that of a single `clear` followed by `import` under that final
configuration. -/
theorem c7_debounce_collapses_to_one_cycle
    (contentOf : Config → List DNode) (scriptsOf : Config → List ScriptUnit)
    (s : DState) (cs : List AttrChange) (log : List Nat) (f : Frag)
    (hctx : s.w.ctx = some f)
    (hne : cs ≠ [])
    (hdiff : ∀ ch ∈ cs, ch.oldV ≠ ch.newV) :
    (runTick contentOf scriptsOf (applyChanges s cs) log).cycles = 1 ∧
    (runTick contentOf scriptsOf
        (runTick contentOf scriptsOf (applyChanges s cs) log).d
        (runTick contentOf scriptsOf (applyChanges s cs) log).log).cycles = 0 ∧
    (applyChanges s cs).cfg
      = cs.foldl (fun c ch => applyAttr c ch.name ch.newV) s.cfg ∧
    (runTick contentOf scriptsOf (applyChanges s cs) log).d.w
      = (ImportComponent.importContent (applyChanges s cs).cfg
          (contentOf (applyChanges s cs).cfg) (scriptsOf (applyChanges s cs).cfg)
          (ImportComponent.clear s.w).1 log).state ∧
    (runTick contentOf scriptsOf (applyChanges s cs) log).log
      = (ImportComponent.importContent (applyChanges s cs).cfg
          (contentOf (applyChanges s cs).cfg) (scriptsOf (applyChanges s cs).cfg)
          (ImportComponent.clear s.w).1 log).log := by
  have hp := applyChanges_pending cs s hne hdiff
  have hw := applyChanges_w cs s
  have hcfg := applyChanges_cfg cs s
  have hctx2 : (applyChanges s cs).w.ctx = some f := by rw [hw, hctx]
  refine ⟨?_, ?_, hcfg, ?_, ?_⟩ <;>
    simp [runTick, hp, hw, hctx2, hctx]

theorem c7_witness :
    ((⟨⟨⟨true, [], [], [5], [], []⟩, some ⟨[], [5]⟩⟩,
        ⟨"u", "insert", false, false⟩, false⟩ : DState).w.ctx = some ⟨[], [5]⟩ ∧
      ([⟨AttrName.targetA, some "insert", some "shadow"⟩] : List AttrChange) ≠ [] ∧
      (∀ ch ∈ ([⟨AttrName.targetA, some "insert", some "shadow"⟩] : List AttrChange),
        ch.oldV ≠ ch.newV)) ∧
    ((runTick (fun _ => [9]) (fun _ => [])
        (applyChanges ⟨⟨⟨true, [], [], [5], [], []⟩, some ⟨[], [5]⟩⟩,
          ⟨"u", "insert", false, false⟩, false⟩
          [⟨AttrName.targetA, some "insert", some "shadow"⟩]) []).cycles = 1 ∧
      (runTick (fun _ => [9]) (fun _ => [])
          (runTick (fun _ => [9]) (fun _ => [])
            (applyChanges ⟨⟨⟨true, [], [], [5], [], []⟩, some ⟨[], [5]⟩⟩,
              ⟨"u", "insert", false, false⟩, false⟩
              [⟨AttrName.targetA, some "insert", some "shadow"⟩]) []).d
          (runTick (fun _ => [9]) (fun _ => [])
            (applyChanges ⟨⟨⟨true, [], [], [5], [], []⟩, some ⟨[], [5]⟩⟩,
              ⟨"u", "insert", false, false⟩, false⟩
              [⟨AttrName.targetA, some "insert", some "shadow"⟩]) []).log).cycles = 0 ∧
      (applyChanges ⟨⟨⟨true, [], [], [5], [], []⟩, some ⟨[], [5]⟩⟩,
          ⟨"u", "insert", false, false⟩, false⟩
          [⟨AttrName.targetA, some "insert", some "shadow"⟩]).cfg
        = ([⟨AttrName.targetA, some "insert", some "shadow"⟩] : List AttrChange).foldl
            (fun c ch => applyAttr c ch.name ch.newV) ⟨"u", "insert", false, false⟩ ∧
      (runTick (fun _ => [9]) (fun _ => [])
          (applyChanges ⟨⟨⟨true, [], [], [5], [], []⟩, some ⟨[], [5]⟩⟩,
            ⟨"u", "insert", false, false⟩, false⟩
            [⟨AttrName.targetA, some "insert", some "shadow"⟩]) []).d.w
        = (ImportComponent.importContent
            (applyChanges ⟨⟨⟨true, [], [], [5], [], []⟩, some ⟨[], [5]⟩⟩,
              ⟨"u", "insert", false, false⟩, false⟩
              [⟨AttrName.targetA, some "insert", some "shadow"⟩]).cfg
            ((fun _ => [9])
              (applyChanges ⟨⟨⟨true, [], [], [5], [], []⟩, some ⟨[], [5]⟩⟩,
                ⟨"u", "insert", false, false⟩, false⟩
                [⟨AttrName.targetA, some "insert", some "shadow"⟩]).cfg)
            ((fun _ => ([] : List ScriptUnit))
              (applyChanges ⟨⟨⟨true, [], [], [5], [], []⟩, some ⟨[], [5]⟩⟩,
                ⟨"u", "insert", false, false⟩, false⟩
                [⟨AttrName.targetA, some "insert", some "shadow"⟩]).cfg)
            (ImportComponent.clear ⟨⟨true, [], [], [5], [], []⟩, some ⟨[], [5]⟩⟩).1
            []).state ∧
      (runTick (fun _ => [9]) (fun _ => [])
          (applyChanges ⟨⟨⟨true, [], [], [5], [], []⟩, some ⟨[], [5]⟩⟩,
            ⟨"u", "insert", false, false⟩, false⟩
            [⟨AttrName.targetA, some "insert", some "shadow"⟩]) []).log
        = (ImportComponent.importContent
            (applyChanges ⟨⟨⟨true, [], [], [5], [], []⟩, some ⟨[], [5]⟩⟩,
              ⟨"u", "insert", false, false⟩, false⟩
              [⟨AttrName.targetA, some "insert", some "shadow"⟩]).cfg
            ((fun _ => [9])
              (applyChanges ⟨⟨⟨true, [], [], [5], [], []⟩, some ⟨[], [5]⟩⟩,
                ⟨"u", "insert", false, false⟩, false⟩
                [⟨AttrName.targetA, some "insert", some "shadow"⟩]).cfg)
            ((fun _ => ([] : List ScriptUnit))
              (applyChanges ⟨⟨⟨true, [], [], [5], [], []⟩, some ⟨[], [5]⟩⟩,
                ⟨"u", "insert", false, false⟩, false⟩
                [⟨AttrName.targetA, some "insert", some "shadow"⟩]).cfg)
            (ImportComponent.clear ⟨⟨true, [], [], [5], [], []⟩, some ⟨[], [5]⟩⟩).1
            []).log) :=
  ⟨⟨rfl, by decide, by decide⟩,
   c7_debounce_collapses_to_one_cycle (fun _ => [9]) (fun _ => []) _ _ [] _
     rfl (by decide) (by decide)⟩

/-- C3: `Url` resolution strips query and fragment suffixes, then tries
the exact path, then the file stem plus `.html`, then the stem plus
`.htm`, in that fixed order; the first 2xx response wins and the attempt
log shows later candidates are not requested; when all three attempts fail
the resolution raises the line-58 load failure and produces no content. -/
theorem c3_url_fallback_resolution_order
    (fetchO : String → Option String) (src : String) :
    (∀ t, fetchO (ShadowImport.pathOf src) = some t →
        ShadowImport.resolveContent fetchO src
          = (.okText t, [ShadowImport.pathOf src])) ∧
    (fetchO (ShadowImport.pathOf src) = none →
      ∀ t, fetchO (ShadowImport.fileOf (ShadowImport.pathOf src) ++ ".html") = some t →
        ShadowImport.resolveContent fetchO src
          = (.okText t, [ShadowImport.pathOf src,
              ShadowImport.fileOf (ShadowImport.pathOf src) ++ ".html"])) ∧
    (fetchO (ShadowImport.pathOf src) = none →
      fetchO (ShadowImport.fileOf (ShadowImport.pathOf src) ++ ".html") = none →
      ∀ t, fetchO (ShadowImport.fileOf (ShadowImport.pathOf src) ++ ".htm") = some t →
        ShadowImport.resolveContent fetchO src
          = (.okText t, [ShadowImport.pathOf src,
              ShadowImport.fileOf (ShadowImport.pathOf src) ++ ".html",
              ShadowImport.fileOf (ShadowImport.pathOf src) ++ ".htm"])) ∧
    (fetchO (ShadowImport.pathOf src) = none →
      fetchO (ShadowImport.fileOf (ShadowImport.pathOf src) ++ ".html") = none →
      fetchO (ShadowImport.fileOf (ShadowImport.pathOf src) ++ ".htm") = none →
        ShadowImport.resolveContent fetchO src
          = (.loadFailed ("Failed to load content from " ++ ShadowImport.pathOf src ++
              " or " ++ ShadowImport.fileOf (ShadowImport.pathOf src) ++ ".html or " ++
              ShadowImport.fileOf (ShadowImport.pathOf src) ++ ".htm"),
             [ShadowImport.pathOf src,
              ShadowImport.fileOf (ShadowImport.pathOf src) ++ ".html",
              ShadowImport.fileOf (ShadowImport.pathOf src) ++ ".htm"])) := by
  refine ⟨?_, ?_, ?_, ?_⟩
  · intro t ht
    simp only [ShadowImport.resolveContent]
    rw [ht]
  · intro h1 t ht
    simp only [ShadowImport.resolveContent]
    rw [h1, ht]
  · intro h1 h2 t ht
    simp only [ShadowImport.resolveContent]
    rw [h1, h2, ht]
  · intro h1 h2 h3
    simp only [ShadowImport.resolveContent]
    rw [h1, h2, h3]

theorem c3_witness :
    ((fun u => if u = "widgets/card.html" then some "card content" else none)
        (ShadowImport.pathOf "widgets/card?v=2#top") = none ∧
      (fun u => if u = "widgets/card.html" then some "card content" else none)
        (ShadowImport.fileOf (ShadowImport.pathOf "widgets/card?v=2#top") ++ ".html")
        = some "card content") ∧
    ShadowImport.resolveContent
        (fun u => if u = "widgets/card.html" then some "card content" else none)
        "widgets/card?v=2#top"
      = (.okText "card content",
         [ShadowImport.pathOf "widgets/card?v=2#top",
          ShadowImport.fileOf (ShadowImport.pathOf "widgets/card?v=2#top") ++ ".html"]) :=
  ⟨⟨by decide, by decide⟩,
   (c3_url_fallback_resolution_order
       (fun u => if u = "widgets/card.html" then some "card content" else none)
       "widgets/card?v=2#top").2.1 (by decide) "card content" (by decide)⟩

/-- C9 counterexample: a concrete import under the `insert` placement
captures the node list `[5]` in the handle's `#NODES` array; running the
clear loop on that handle drains the recorded array to `[]` — it does not
remain the captured sequence `[5]` as the claim states. -/
theorem c9_counterexample :
    (ImportComponent.importContent ⟨"u", "insert", false, false⟩ [5] []
        ⟨⟨true, [], [], [], [], []⟩, none⟩ []).state.ctx
      = some ⟨[], [5]⟩ ∧
    (clearFrag ⟨[], [5]⟩
        (ImportComponent.importContent ⟨"u", "insert", false, false⟩ [5] []
          ⟨⟨true, [], [], [], [], []⟩, none⟩ []).state.dom).1.nodesRec = [] ∧
    ¬ (clearFrag ⟨[], [5]⟩
        (ImportComponent.importContent ⟨"u", "insert", false, false⟩ [5] []
          ⟨⟨true, [], [], [], [], []⟩, none⟩ []).state.dom).1.nodesRec = [5] := by
  refine ⟨rfl, rfl, ?_⟩
  decide

/-- C9 (amended): `clear` detaches every owned node from its current
parent — removing it from all DOM regions — and re-appends it to the
fragment, so the fragment's child list ends up equal to the exact captured
node sequence (complete, in order), keeping the fragment reusable; the
recorded `#NODES` array itself, however, is drained to empty by the
`shift()` loop rather than left unmodified. -/
theorem c9_amended_clear_restores_children_drains_record
    (f : Frag) (d : Dom)
    (hnd : f.nodesRec.Nodup)
    (hch : f.children = [] ∨ f.children = f.nodesRec) :
    (clearFrag f d).1 = ⟨f.nodesRec, []⟩ ∧
    (clearFrag f d).2 = filterDom f.nodesRec d ∧
    (∀ n ∈ f.nodesRec, n ∉ ((clearFrag f d).2).allNodes) := by
  have hsnd : (clearFrag f d).2 = filterDom f.nodesRec d := by
    simp [clearFrag, clearLoop_snd]
  have hfil : f.children.filter (fun x => x ∉ f.nodesRec) = [] := by
    rcases hch with h | h <;> rw [h]
    · rfl
    · exact filter_not_mem_self _
  refine ⟨?_, hsnd, ?_⟩
  · show (⟨(clearLoop f.nodesRec f.children d).1, []⟩ : Frag) = _
    rw [clearLoop_fst _ _ _ hnd, hfil, List.nil_append]
  · intro n hn
    rw [hsnd]
    exact not_mem_allNodes_filterDom d hn

theorem c9_amended_witness :
    (((⟨[], [4, 5]⟩ : Frag).nodesRec.Nodup) ∧
      ((⟨[], [4, 5]⟩ : Frag).children = [] ∨
        (⟨[], [4, 5]⟩ : Frag).children = (⟨[], [4, 5]⟩ : Frag).nodesRec)) ∧
    ((clearFrag ⟨[], [4, 5]⟩ ⟨true, [], [], [4, 5], [], []⟩).1 = ⟨[4, 5], []⟩ ∧
      (clearFrag ⟨[], [4, 5]⟩ ⟨true, [], [], [4, 5], [], []⟩).2
        = filterDom [4, 5] ⟨true, [], [], [4, 5], [], []⟩ ∧
      (∀ n ∈ (⟨[], [4, 5]⟩ : Frag).nodesRec,
        n ∉ ((clearFrag ⟨[], [4, 5]⟩ ⟨true, [], [], [4, 5], [], []⟩).2).allNodes)) :=
  ⟨⟨by decide, by decide⟩,
   c9_amended_clear_restores_children_drains_record ⟨[], [4, 5]⟩ _
     (by decide) (Or.inl rfl)⟩

/-- C10: in the js branch of `ShadowImport.attach`, whenever the loaded
module's default export is not a subclass of `ShadowImport.ContentScript`,
the function throws before instantiating or invoking anything — but the
intended `TypeError` is never constructed, because its message template
interpolates the unbound identifier `dassdf`, so the error that actually
escapes is the `ReferenceError` for `dassdf`. -/
theorem c10_dassdf_reference_error :
    ShadowImport.attachJsStep false = .threw (.refErr "dassdf") ∧
    (∀ m, ShadowImport.attachJsStep false ≠ .threw (.typeErr m)) ∧
    ShadowImport.attachJsStep false ≠ .scriptAttached := by
  have h1 : ShadowImport.attachJsStep false
      = AttachJsOutcome.threw (JsErr.refErr "dassdf") := by decide
  refine ⟨h1, ?_, ?_⟩
  · intro m hm
    rw [h1] at hm
    simp at hm
  · intro hm
    rw [h1] at hm
    simp at hm
